import Mathlib

/-!
Shallow embedding of `utils.py` from the eclipse-processing repository.

Pixel samples are modelled as rationals (`ℚ`); images are lists of rows,
flat lists of samples, or index functions, depending on which shape the
operation under study works on.  FITS headers are ordered key/value card
lists.  Python/numpy in-place mutation is modelled by explicit state
passing: a function that mutates its argument returns the new value of
that argument alongside its result.
-/

namespace EclipseProcessing

/-- A FITS-style header: an ordered list of key/value cards.  Only numeric
card values appear in the operations under study, so values are `ℚ`. -/
abbrev Header := List (String × ℚ)

/-- `k in header` / `header[k]` read access: the first card with key `k`. -/
def Header.lookup (h : Header) (k : String) : Option ℚ :=
  match h with
  | [] => none
  | (k0, v0) :: t => if k0 = k then some v0 else Header.lookup t k

/-- `"PEDESTAL" in header`-style membership test. -/
def Header.hasKey (h : Header) (k : String) : Bool :=
  (h.lookup k).isSome

/-- `header[k] = v` write access: update the first card with key `k`, or
append a new card when the key is absent (astropy assignment semantics). -/
def Header.set (h : Header) (k : String) (v : ℚ) : Header :=
  match h with
  | [] => [(k, v)]
  | (k0, v0) :: t => if k0 = k then (k0, v) :: t else (k0, v0) :: Header.set t k v

/-- `del header[k]`: removes the cards with keyword `k`. -/
def Header.del (h : Header) (k : String) : Header :=
  h.filter (fun c => c.1 ≠ k)

/-! ## ToneCurve: `mtf` and `ht` (utils.py lines 25-39) -/

/-- `mtf(x, m) = (m-1)*x/((2*m-1)*x-m)` (utils.py line 39). -/
def mtf (x m : ℚ) : ℚ :=
  (m - 1) * x / ((2 * m - 1) * x - m)

/-- Insert into a sorted list (ascending). -/
def insertSorted (x : ℚ) : List ℚ → List ℚ
  | [] => [x]
  | y :: t => if x ≤ y then x :: y :: t else y :: insertSorted x t

/-- Ascending insertion sort, used to model `np.median`. -/
def sortAsc (l : List ℚ) : List ℚ :=
  l.foldr insertSorted []

/-- `np.median`: middle element of the sorted data, or the mean of the two
middle elements when the count is even. -/
def npMedian (l : List ℚ) : ℚ :=
  let s := sortAsc l
  if l.length % 2 = 1 then s.getD (l.length / 2) 0
  else (s.getD (l.length / 2 - 1) 0 + s.getD (l.length / 2) 0) / 2

/-- `x.min()` on a nonempty array. -/
def npMin : List ℚ → ℚ
  | [] => 0
  | x :: t => t.foldl min x

/-- `x.max()` on a nonempty array. -/
def npMax : List ℚ → ℚ
  | [] => 0
  | x :: t => t.foldl max x

/-- Resolution of the `low` argument of `ht` (utils.py lines 26-30). -/
def htLow (x : List ℚ) (low : Option ℚ) (shadow_clipping : Bool) : ℚ :=
  match low with
  | some l => l
  | none => if shadow_clipping then npMedian x else npMin x

/-- Resolution of the `high` argument of `ht` (utils.py lines 31-32). -/
def htHigh (x : List ℚ) (high : Option ℚ) : ℚ :=
  match high with
  | some h => h
  | none => npMax x

/-- `ht` (utils.py lines 25-36): clip to `[low, high]`, rescale linearly to
`[0,1]`, then apply the midtone transfer function. -/
def ht (x : List ℚ) (m : ℚ) (low high : Option ℚ) (shadow_clipping : Bool) : List ℚ :=
  let lo := htLow x low shadow_clipping
  let hi := htHigh x high
  (((x.map (fun v => min (max v lo) hi)).map (fun v => (v - lo) / (hi - lo))).map
    (fun v => mtf v m))

/-! ## Normalizer: `remove_pedestal` (utils.py lines 60-66) -/

/-- `remove_pedestal` (utils.py lines 60-66).  The docstring says the
header is updated in place; this is modelled by returning the new header
alongside the returned image. -/
def remove_pedestal (img : List ℚ) (header : Header) : List ℚ × Header :=
  if header.hasKey "PEDESTAL" then
    let p := (header.lookup "PEDESTAL").getD 0
    (img.map (fun v => max (v - p / 65535) 0), header.del "PEDESTAL")
  else (img, header)

/-! Reference-semantics embedding for the frame property of
`remove_pedestal`: numpy arrays live in a store indexed by references, and
each numpy binary operation (`img - c`, `np.maximum(img, 0)`) allocates a
fresh array.  The Python body only rebinds the local name `img`; it never
writes through the caller's reference. -/

/-- A store of allocated numpy arrays. -/
abbrev Store := List (List ℚ)

/-- `img - c`: allocates a fresh array holding the elementwise difference. -/
def npSubConst (s : Store) (r : ℕ) (c : ℚ) : Store × ℕ :=
  (s ++ [(s.getD r []).map (fun v => v - c)], s.length)

/-- `np.maximum(img, 0)`: allocates a fresh array of elementwise maxima. -/
def npMaximumZero (s : Store) (r : ℕ) : Store × ℕ :=
  (s ++ [(s.getD r []).map (fun v => max v 0)], s.length)

/-- `remove_pedestal` under reference semantics: takes the store and the
caller's array reference, returns the new store, the reference of the
returned array, and the header after the call. -/
def remove_pedestal_store (s : Store) (r : ℕ) (header : Header) : Store × ℕ × Header :=
  if header.hasKey "PEDESTAL" then
    let p := (header.lookup "PEDESTAL").getD 0
    let s1 := npSubConst s r (p / 65535)
    let s2 := npMaximumZero s1.1 s1.2
    (s2.1, s2.2, header.del "PEDESTAL")
  else (s, r, header)

/-! ## Normalizer/FormatAdapter boundary: `save_as_fits` (utils.py lines
68-75) and `read_fits_as_float` (lines 41-58) -/

/-- One sample of `(np.clip(img, 0, 1)*65535).astype('uint16')`
(utils.py line 71).  `np.clip(x, 0, 1) = minimum(maximum(x, 0), 1)`, and
`astype` truncates; the clipped scaled value is nonnegative, so the
truncation is the floor. -/
def toUint16 (x : ℚ) : ℕ :=
  (⌊min (max x 0) 1 * 65535⌋).toNat

/-- One sample of `img.astype('float') / 65535` (utils.py line 50). -/
def fromUint16 (n : ℕ) : ℚ :=
  (n : ℚ) / 65535

/-- On-disk pixel payload of the primary HDU: either 16-bit unsigned
samples or floating-point samples (any other dtype raises before this
point). -/
inductive FitsData where
  | u16 (d : List ℕ)
  | flt (d : List ℚ)

/-- The sample conversion of `save_as_fits` (utils.py lines 70-71). -/
def save_as_fits_samples (img : List ℚ) (convert_to_uint16 : Bool) : FitsData :=
  if convert_to_uint16 then FitsData.u16 (img.map toUint16) else FitsData.flt img

/-- The sample conversion of `read_fits_as_float` (utils.py lines 49-54). -/
def read_fits_as_float_samples : FitsData → List ℚ
  | FitsData.u16 d => d.map fromUint16
  | FitsData.flt d => d

/-- `np.moveaxis(img, 2, 0)` on save: `HxWxC -> CxHxW` (line 73). -/
def moveaxisSave (f : ℕ → ℕ → ℕ → ℚ) : ℕ → ℕ → ℕ → ℚ :=
  fun c i j => f i j c

/-- `np.moveaxis(img, 0, 2)` on read: `CxHxW -> HxWxC` (line 57). -/
def moveaxisRead (g : ℕ → ℕ → ℕ → ℚ) : ℕ → ℕ → ℕ → ℚ :=
  fun i j c => g c i j

/-- A sample 3-axis (color) image used to instantiate the transposition
round trip. -/
def colorSample : ℕ → ℕ → ℕ → ℚ :=
  fun i j c => (i : ℚ) + 2 * (j : ℚ) + 3 * (c : ℚ)

/-! ## Normalizer: `combine_red_green` (utils.py lines 19-23) -/

/-- A 2-D numpy array: shape plus a total indexing function. -/
structure Plane where
  h : ℕ
  w : ℕ
  val : ℕ → ℕ → ℚ

/-- A 3-channel color image (channel axis last in memory). -/
structure ColorImage where
  h : ℕ
  w : ℕ
  val : ℕ → ℕ → ℕ → ℚ

instance : Inhabited ColorImage :=
  ⟨⟨0, 0, fun _ _ _ => 0⟩⟩

/-- numpy assignment broadcasting of a 2-D source of shape `hs×ws` into a
2-D target of shape `ht×wt`: each source dimension must equal the
target's or 1, otherwise numpy raises "could not broadcast". -/
def broadcastOk (hs ws ht wt : ℕ) : Bool :=
  (hs == ht || hs == 1) && (ws == wt || ws == 1)

/-- `combine_red_green` (utils.py lines 19-23): allocates
`np.zeros((img1.shape[0], img1.shape[1], 3))`, assigns `img[:,:,0] = img1`
(shapes match by construction) and `img[:,:,1] = img2` — a numpy
broadcasting assignment that raises when `img2` is not broadcastable to
`img1`'s shape.  There is no explicit shape check in the source. -/
def combine_red_green (img1 img2 : Plane) : Except String ColorImage :=
  if broadcastOk img2.h img2.w img1.h img1.w then
    Except.ok
      { h := img1.h, w := img1.w,
        val := fun i j c =>
          if c = 0 then img1.val i j
          else if c = 1 then
            img2.val (if img2.h = 1 then 0 else i) (if img2.w = 1 then 0 else j)
          else 0 }
  else Except.error "could not broadcast"

/-- The payload of a successful `combine_red_green` call. -/
def okValue : Except String ColorImage → ColorImage
  | Except.ok img => img
  | Except.error _ => default

/-- 2×2 plane of zeros. -/
def planeA : Plane := ⟨2, 2, fun _ _ => 0⟩

/-- 1×2 plane of fives: broadcastable into a 2×2 target. -/
def planeB : Plane := ⟨1, 2, fun _ _ => 5⟩

/-- 3×4 plane. -/
def planeC : Plane := ⟨3, 4, fun i j => (i : ℚ) + (j : ℚ)⟩

/-- 3×4 plane. -/
def planeD : Plane := ⟨3, 4, fun i j => (i : ℚ) * (j : ℚ)⟩

/-- 5×7 plane: not broadcastable into a 3×4 target. -/
def planeE : Plane := ⟨5, 7, fun _ _ => 1⟩

/-! ## Geometry: `crop_inset` (utils.py lines 112-127) -/

/-- `img[r0:r1, c0:c1] = v`: constant fill of a rectangular slice of an
image given as a total indexing function. -/
def writeRect (img : ℕ → ℕ → ℚ) (r0 r1 c0 c1 : ℕ) (v : ℚ) : ℕ → ℕ → ℚ :=
  fun i j => if r0 ≤ i ∧ i < r1 ∧ c0 ≤ j ∧ j < c1 then v else img i j

/-- `img[r0:, c0:] = src`: paste `src` into the block reaching the
bottom-right corner of an `H×W` image. -/
def pasteRect (img : ℕ → ℕ → ℚ) (r0 c0 : ℕ) (src : ℕ → ℕ → ℚ) (H W : ℕ) :
    ℕ → ℕ → ℚ :=
  fun i j => if r0 ≤ i ∧ i < H ∧ c0 ≤ j ∧ j < W then src (i - r0) (j - c0) else img i j

/-- `buf[r0:..., c0:...].repeat(scale, axis=0).repeat(scale, axis=1)`:
nearest-neighbor magnification of the view of `buf` starting at
`(r0, c0)` — sample `(a, b)` of the result reads
`buf (r0 + a / scale) (c0 + b / scale)`. -/
def repeatImg (buf : ℕ → ℕ → ℚ) (r0 c0 scale : ℕ) : ℕ → ℕ → ℚ :=
  fun a b => buf (r0 + a / scale) (c0 + b / scale)

/-- `crop_inset` (utils.py lines 112-127) on an `H×W` grayscale image,
for arguments satisfying the fit precondition (all slice bounds
nonnegative and in range, so Python's negative-index wrap-around is never
reached).  The in-place mutation of `img` is modelled by returning the
new image.  `crop` on line 116 is a numpy *view*: `repeat` on line 123
reads the buffer as it stands after the border writes of lines 118-121
(which never touch the inside of the crop box), hence `inset` below reads
`s4`.  `border_value` is a parameter (`np.nan` in the source default only
makes sense for floats). -/
def crop_inset (H W : ℕ) (img : ℕ → ℕ → ℚ) (crop_center crop_radii : ℕ × ℕ)
    (scale : ℕ) (border_value : ℚ) (border_thickness : ℕ) : ℕ → ℕ → ℚ :=
  let i_left := crop_center.1 - crop_radii.1
  let i_right := crop_center.1 + crop_radii.1
  let j_top := crop_center.2 - crop_radii.2
  let j_bottom := crop_center.2 + crop_radii.2
  let s1 := writeRect img (i_left - border_thickness) (i_right + 1 + border_thickness)
    (j_top - border_thickness) j_top border_value
  let s2 := writeRect s1 (i_left - border_thickness) (i_right + 1 + border_thickness)
    (j_bottom + 1) (j_bottom + 1 + border_thickness) border_value
  let s3 := writeRect s2 (i_left - border_thickness) i_left
    (j_top - border_thickness) (j_bottom + 1 + border_thickness) border_value
  let s4 := writeRect s3 (i_right + 1) (i_right + 1 + border_thickness)
    (j_top - border_thickness) (j_bottom + 1 + border_thickness) border_value
  let ihgt := (i_right + 1 - i_left) * scale
  let iwid := (j_bottom + 1 - j_top) * scale
  let inset := repeatImg s4 i_left j_top scale
  let s5 := pasteRect s4 (H - ihgt) (W - iwid) inset H W
  let s6 := writeRect s5 (H - ihgt) H (W - iwid - border_thickness) (W - iwid)
    border_value
  writeRect s6 (H - ihgt - border_thickness) (H - ihgt) (W - iwid) W border_value

/-- Sample 20×20 image with distinct values per pixel. -/
def imgW : ℕ → ℕ → ℚ := fun i j => (i : ℚ) * 100 + (j : ℚ)

/-! ## Geometry: `crop` (utils.py lines 16-17), `crop_img` (lines 129-143) -/

/-- Python slice `l[a:b]` for nonnegative in-range bounds (the modelled
operations never reach the negative-index wrap-around of Python). -/
def pySlice {α : Type} (a b : ℕ) (l : List α) : List α :=
  (l.drop a).take (b - a)

/-- `crop` (utils.py lines 16-17):
`img[y_c-h//2:y_c+h//2, x_c-w//2:x_c+w//2]`. -/
def crop (img : List (List ℚ)) (x_c y_c w h : ℕ) : List (List ℚ) :=
  (pySlice (y_c - h / 2) (y_c + h / 2) img).map (pySlice (x_c - w / 2) (x_c + w / 2))

/-- The value rewrite applied by the header loop of `crop_img`
(utils.py lines 136-140): both `if` tests run for every card. -/
def cropAdjust (left top : ℕ) (k : String) (v : ℚ) : ℚ :=
  let v1 := if k = "MOON-X" ∨ k = "SUN-X" then v - (left : ℚ) else v
  if k = "MOON-Y" ∨ k = "SUN-Y" then v1 - (top : ℚ) else v1

/-- `crop_img` with a header supplied (utils.py lines 129-141): crops the
inclusive rectangle `[top:bottom+1, left:right+1]`, then writes
`NAXIS1`/`NAXIS2` from `img.shape` — the shape of the original `img`
argument, exactly as line 135 does — and translates the
feature-coordinate cards. -/
def crop_img (img : List (List ℚ)) (left right top bottom : ℕ) (header : Header) :
    List (List ℚ) × Header :=
  let new_img := (pySlice top (bottom + 1) img).map (pySlice left (right + 1))
  let h1 := (header.set "NAXIS1" ((img.headD []).length : ℚ)).set
    "NAXIS2" (img.length : ℚ)
  (new_img, h1.map (fun c => (c.1, cropAdjust left top c.1 c.2)))

/-- 3×3 all-zero image. -/
def img3 : List (List ℚ) := List.replicate 3 (List.replicate 3 0)

/-- 5×5 all-zero image. -/
def img5 : List (List ℚ) := List.replicate 5 (List.replicate 5 0)

/-- 200×200 all-zero image. -/
def img200 : List (List ℚ) := List.replicate 200 (List.replicate 200 0)

/-- Header of the 3×3 image. -/
def hdr3 : Header := [("NAXIS1", 3), ("NAXIS2", 3)]

/-- Header with a width field inconsistent with the paired image. -/
def hdrStale : Header := [("NAXIS1", 999), ("MOON-X", 120), ("MOON-Y", 80)]

/-- Header carrying the two tracked feature-coordinate pairs. -/
def hdrFeatures : Header :=
  [("MOON-X", 120), ("MOON-Y", 80), ("SUN-X", 120), ("SUN-Y", 80), ("EXPTIME", 6)]

/-! ## Helper lemmas -/

theorem pySlice_length {α : Type} (a b : ℕ) (l : List α)
    (hb : b ≤ l.length) : (pySlice a b l).length = b - a := by
  unfold pySlice
  rw [List.length_take, List.length_drop]
  omega

theorem mem_of_mem_pySlice {α : Type} {a b : ℕ} {l : List α} {x : α}
    (h : x ∈ pySlice a b l) : x ∈ l :=
  List.mem_of_mem_drop (List.mem_of_mem_take h)

theorem writeRect_read_out (img : ℕ → ℕ → ℚ) (r0 r1 c0 c1 : ℕ) (v : ℚ) (i j : ℕ)
    (h : ¬(r0 ≤ i ∧ i < r1 ∧ c0 ≤ j ∧ j < c1)) :
    writeRect img r0 r1 c0 c1 v i j = img i j :=
  if_neg h

theorem pasteRect_read_in (img : ℕ → ℕ → ℚ) (r0 c0 : ℕ) (src : ℕ → ℕ → ℚ)
    (H W i j : ℕ) (h : r0 ≤ i ∧ i < H ∧ c0 ≤ j ∧ j < W) :
    pasteRect img r0 c0 src H W i j = src (i - r0) (j - c0) :=
  if_pos h

theorem pasteRect_read_out (img : ℕ → ℕ → ℚ) (r0 c0 : ℕ) (src : ℕ → ℕ → ℚ)
    (H W i j : ℕ) (h : ¬(r0 ≤ i ∧ i < H ∧ c0 ≤ j ∧ j < W)) :
    pasteRect img r0 c0 src H W i j = img i j :=
  if_neg h

theorem repeatImg_read (buf : ℕ → ℕ → ℚ) (r0 c0 scale a b : ℕ) :
    repeatImg buf r0 c0 scale a b = buf (r0 + a / scale) (c0 + b / scale) :=
  rfl

theorem Header.lookup_set_ne (h : Header) (key k : String) (v : ℚ)
    (hk : k ≠ key) : (h.set key v).lookup k = h.lookup k := by
  induction h with
  | nil => simp [Header.set, Header.lookup, Ne.symm hk]
  | cons c t ih =>
    by_cases hc : c.1 = key
    · simp [Header.set, hc, Header.lookup, Ne.symm hk]
    · by_cases hck : c.1 = k
      · simp [Header.set, hc, Header.lookup, hck, hk]
      · simp [Header.set, hc, Header.lookup, hck, ih]

theorem Header.lookup_map_adjust (h : Header) (f : String → ℚ → ℚ) (k : String) :
    Header.lookup (h.map (fun c => (c.1, f c.1 c.2))) k = (h.lookup k).map (f k) := by
  induction h with
  | nil => rfl
  | cons c t ih =>
    by_cases hc : c.1 = k
    · simp [Header.lookup, hc]
    · simp [Header.lookup, hc, ih]

theorem cropAdjust_moonX (left top : ℕ) :
    cropAdjust left top "MOON-X" = fun v => v - (left : ℚ) := rfl

theorem cropAdjust_sunX (left top : ℕ) :
    cropAdjust left top "SUN-X" = fun v => v - (left : ℚ) := rfl

theorem cropAdjust_moonY (left top : ℕ) :
    cropAdjust left top "MOON-Y" = fun v => v - (top : ℚ) := rfl

theorem cropAdjust_sunY (left top : ℕ) :
    cropAdjust left top "SUN-Y" = fun v => v - (top : ℚ) := rfl

theorem cropAdjust_other (left top : ℕ) (k : String) (v : ℚ)
    (hk3 : k ≠ "MOON-X") (hk4 : k ≠ "MOON-Y") (hk5 : k ≠ "SUN-X")
    (hk6 : k ≠ "SUN-Y") : cropAdjust left top k v = v := by
  simp [cropAdjust, hk3, hk4, hk5, hk6]

theorem Header.lookup_del_self (h : Header) (k : String) :
    (h.del k).lookup k = none := by
  induction h with
  | nil => rfl
  | cons c t ih =>
    by_cases hc : c.1 = k
    · simpa [Header.del, hc] using ih
    · simpa [Header.del, Header.lookup, hc] using ih

theorem remove_pedestal_of_hasKey (img : List ℚ) (header : Header)
    (h : header.hasKey "PEDESTAL" = true) :
    remove_pedestal img header
      = (img.map (fun v => max (v - (header.lookup "PEDESTAL").getD 0 / 65535) 0),
         header.del "PEDESTAL") := by
  unfold remove_pedestal
  rw [h, if_pos rfl]

theorem remove_pedestal_of_not_hasKey (img : List ℚ) (header : Header)
    (h : header.hasKey "PEDESTAL" = false) :
    remove_pedestal img header = (img, header) := by
  unfold remove_pedestal
  rw [h, if_neg Bool.false_ne_true]

theorem remove_pedestal_store_of_hasKey (s : Store) (r : ℕ) (header : Header)
    (h : header.hasKey "PEDESTAL" = true) :
    remove_pedestal_store s r header
      = (let A := (s.getD r []).map
            (fun v => v - (header.lookup "PEDESTAL").getD 0 / 65535)
         ((s ++ [A]) ++ [((s ++ [A]).getD s.length []).map (fun v => max v 0)],
          (s ++ [A]).length, header.del "PEDESTAL")) := by
  unfold remove_pedestal_store npSubConst npMaximumZero
  rw [h, if_pos rfl]

theorem remove_pedestal_store_of_not_hasKey (s : Store) (r : ℕ) (header : Header)
    (h : header.hasKey "PEDESTAL" = false) :
    remove_pedestal_store s r header = (s, r, header) := by
  unfold remove_pedestal_store
  rw [h, if_neg Bool.false_ne_true]

theorem getD_concat_self {α : Type} (l : List α) (x : α) (d : α) :
    (l ++ [x]).getD l.length d = x := by
  rw [List.getD_append_right _ _ _ _ (le_refl _), Nat.sub_self]
  rfl

theorem mtf_denom_neg {m x : ℚ} (hm0 : 0 < m) (hm1 : m < 1)
    (hx0 : 0 ≤ x) (hx1 : x ≤ 1) : (2 * m - 1) * x - m < 0 := by
  nlinarith [mul_nonneg hm0.le hx0, mul_nonneg hm0.le (by linarith : (0:ℚ) ≤ 1 - x),
    mul_nonneg (by linarith : (0:ℚ) ≤ 1 - m) hx0]

theorem mtf_nonneg {m x : ℚ} (hm0 : 0 < m) (hm1 : m < 1)
    (hx0 : 0 ≤ x) (hx1 : x ≤ 1) : 0 ≤ mtf x m := by
  have hd := mtf_denom_neg hm0 hm1 hx0 hx1
  have hnum : (m - 1) * x ≤ 0 :=
    mul_nonpos_of_nonpos_of_nonneg (by linarith) hx0
  unfold mtf
  rw [div_nonneg_iff]
  right
  exact ⟨hnum, hd.le⟩

theorem mtf_le_one {m x : ℚ} (hm0 : 0 < m) (hm1 : m < 1)
    (hx0 : 0 ≤ x) (hx1 : x ≤ 1) : mtf x m ≤ 1 := by
  have hd := mtf_denom_neg hm0 hm1 hx0 hx1
  have key : mtf x m - 1 = m * (1 - x) / ((2 * m - 1) * x - m) := by
    unfold mtf
    rw [div_sub_one hd.ne]
    congr 1
    ring
  have hnum : 0 ≤ m * (1 - x) := mul_nonneg hm0.le (by linarith)
  have : m * (1 - x) / ((2 * m - 1) * x - m) ≤ 0 :=
    div_nonpos_of_nonneg_of_nonpos hnum hd.le
  linarith [key ▸ this]

/-! ## Claim theorems (ToneCurve, Normalizer) -/

/-- C8: for every `x` in the open interval `(0,1)`, the midtone transfer
function with midtone balance `m = 0.5` is the identity: `mtf(x, 0.5) = x`. -/
theorem mtf_half_identity (x : ℚ) (hx0 : 0 < x) (hx1 : x < 1) :
    mtf x (1 / 2) = x := by
  unfold mtf
  norm_num

theorem mtf_half_identity_witness :
    (0 < (1:ℚ)/3 ∧ (1:ℚ)/3 < 1) ∧ mtf ((1:ℚ)/3) (1/2) = (1:ℚ)/3 :=
  ⟨⟨by norm_num, by norm_num⟩, mtf_half_identity ((1:ℚ)/3) (by norm_num) (by norm_num)⟩

/-- C9: for every midtone balance `m` strictly between 0 and 1 and every
`x` in `[0,1]`, the denominator `(2m-1)*x - m` of `mtf` is nonzero,
`mtf(x, m)` lies in `[0,1]`, the endpoints are fixed (`mtf 0 m = 0`,
`mtf 1 m = 1`), and `ht` with such an `m` and resolved `high > low`
produces output entirely within `[0,1]`. -/
theorem mtf_ht_safety (m x : ℚ) (xs : List ℚ) (low high : Option ℚ)
    (shadow_clipping : Bool) (v : ℚ)
    (hm0 : 0 < m) (hm1 : m < 1) (hx0 : 0 ≤ x) (hx1 : x ≤ 1)
    (hlh : htLow xs low shadow_clipping < htHigh xs high)
    (hv : v ∈ ht xs m low high shadow_clipping) :
    ((2 * m - 1) * x - m ≠ 0 ∧ 0 ≤ mtf x m ∧ mtf x m ≤ 1)
    ∧ mtf 0 m = 0 ∧ mtf 1 m = 1
    ∧ (0 ≤ v ∧ v ≤ 1) := by
  have hm1ne : m - 1 ≠ 0 := sub_ne_zero.mpr hm1.ne
  refine ⟨⟨(mtf_denom_neg hm0 hm1 hx0 hx1).ne, mtf_nonneg hm0 hm1 hx0 hx1,
    mtf_le_one hm0 hm1 hx0 hx1⟩, ?_, ?_, ?_⟩
  · unfold mtf
    simp
  · unfold mtf
    rw [mul_one, show (2 * m - 1) * 1 - m = m - 1 by ring, div_self hm1ne]
  · simp only [ht, List.mem_map] at hv
    obtain ⟨a, ⟨b, ⟨u, hu, rfl⟩, rfl⟩, rfl⟩ := hv
    set lo := htLow xs low shadow_clipping with hlo
    set hi := htHigh xs high with hhi
    have h1 : lo ≤ min (max u lo) hi := le_min (le_max_right u lo) hlh.le
    have h2 : min (max u lo) hi ≤ hi := min_le_right _ _
    have hy0 : 0 ≤ (min (max u lo) hi - lo) / (hi - lo) :=
      div_nonneg (by linarith) (by linarith)
    have hy1 : (min (max u lo) hi - lo) / (hi - lo) ≤ 1 :=
      (div_le_one (by linarith)).mpr (by linarith)
    exact ⟨mtf_nonneg hm0 hm1 hy0 hy1, mtf_le_one hm0 hm1 hy0 hy1⟩

theorem mtf_ht_safety_witness :
    (0 < (1:ℚ)/4 ∧ (1:ℚ)/4 < 1 ∧ 0 ≤ (1:ℚ)/2 ∧ (1:ℚ)/2 ≤ 1
      ∧ htLow [0] (some 0) false < htHigh [0] (some 1)
      ∧ mtf ((min (max (0:ℚ) 0) 1 - 0) / (1 - 0)) ((1:ℚ)/4)
          ∈ ht [0] ((1:ℚ)/4) (some 0) (some 1) false)
    ∧ (((2 * ((1:ℚ)/4) - 1) * ((1:ℚ)/2) - (1:ℚ)/4 ≠ 0
        ∧ 0 ≤ mtf ((1:ℚ)/2) ((1:ℚ)/4) ∧ mtf ((1:ℚ)/2) ((1:ℚ)/4) ≤ 1)
      ∧ mtf 0 ((1:ℚ)/4) = 0 ∧ mtf 1 ((1:ℚ)/4) = 1
      ∧ (0 ≤ mtf ((min (max (0:ℚ) 0) 1 - 0) / (1 - 0)) ((1:ℚ)/4)
          ∧ mtf ((min (max (0:ℚ) 0) 1 - 0) / (1 - 0)) ((1:ℚ)/4) ≤ 1)) :=
  ⟨⟨by norm_num, by norm_num, by norm_num, by norm_num, by norm_num [htLow, htHigh],
      List.mem_singleton.mpr rfl⟩,
    mtf_ht_safety ((1:ℚ)/4) ((1:ℚ)/2) [0] (some 0) (some 1) false
      (mtf ((min (max (0:ℚ) 0) 1 - 0) / (1 - 0)) ((1:ℚ)/4))
      (by norm_num) (by norm_num) (by norm_num) (by norm_num)
      (by norm_num [htLow, htHigh]) (List.mem_singleton.mpr rfl)⟩

/-- C4: if the header contains `PEDESTAL`, `remove_pedestal` returns the
image with `PEDESTAL/65535` subtracted from every pixel and negatives
clamped to 0, and deletes the `PEDESTAL` key from the (in-place mutated,
here threaded) header; if the key is absent it returns image and header
unchanged; hence a second call after a first is always a no-op. -/
theorem remove_pedestal_spec (img : List ℚ) (header : Header) :
    (∀ p, header.lookup "PEDESTAL" = some p →
        remove_pedestal img header
          = (img.map (fun v => max (v - p / 65535) 0), header.del "PEDESTAL"))
    ∧ (header.lookup "PEDESTAL" = none → remove_pedestal img header = (img, header))
    ∧ ((remove_pedestal img header).2).lookup "PEDESTAL" = none
    ∧ remove_pedestal (remove_pedestal img header).1 (remove_pedestal img header).2
        = remove_pedestal img header := by
  have habsent : ∀ (i : List ℚ) (h : Header), h.lookup "PEDESTAL" = none →
      remove_pedestal i h = (i, h) := by
    intro i h hnone
    exact remove_pedestal_of_not_hasKey i h (by rw [Header.hasKey, hnone]; rfl)
  have hkey : ((remove_pedestal img header).2).lookup "PEDESTAL" = none := by
    cases hcase : header.hasKey "PEDESTAL" with
    | false =>
      rw [remove_pedestal_of_not_hasKey img header hcase]
      simpa [Header.hasKey, Option.isSome_iff_exists] using hcase
    | true =>
      rw [remove_pedestal_of_hasKey img header hcase]
      exact Header.lookup_del_self header "PEDESTAL"
  refine ⟨?_, habsent img header, hkey, ?_⟩
  · intro p hp
    rw [remove_pedestal_of_hasKey img header (by rw [Header.hasKey, hp]; rfl), hp]
    rfl
  · rw [habsent _ _ hkey]

theorem remove_pedestal_spec_witness :
    Header.lookup [("PEDESTAL", (655:ℚ))] "PEDESTAL" = some 655
    ∧ remove_pedestal [(1:ℚ)/2] [("PEDESTAL", (655:ℚ))]
        = ([(1:ℚ)/2].map (fun v => max (v - 655 / 65535) 0),
           Header.del [("PEDESTAL", (655:ℚ))] "PEDESTAL") :=
  ⟨by decide, ((remove_pedestal_spec [(1:ℚ)/2] [("PEDESTAL", (655:ℚ))]).1) 655 (by decide)⟩

/-- C10: `remove_pedestal` never writes through the caller's array
reference: in the store semantics, the array at the caller's reference is
unchanged by the call, and the returned reference holds exactly the image
computed by the functional model. -/
theorem remove_pedestal_no_array_mutation (s : Store) (r : ℕ) (header : Header)
    (hr : r < s.length) :
    ((remove_pedestal_store s r header).1).getD r [] = s.getD r []
    ∧ ((remove_pedestal_store s r header).1).getD
        ((remove_pedestal_store s r header).2.1) []
        = (remove_pedestal (s.getD r []) header).1 := by
  cases hcase : header.hasKey "PEDESTAL" with
  | false =>
    rw [remove_pedestal_store_of_not_hasKey s r header hcase,
      remove_pedestal_of_not_hasKey _ header hcase]
    exact ⟨rfl, rfl⟩
  | true =>
    rw [remove_pedestal_store_of_hasKey s r header hcase,
      remove_pedestal_of_hasKey _ header hcase]
    constructor
    · show ((s ++ _) ++ _).getD r [] = s.getD r []
      rw [List.append_assoc, List.getD_append _ _ _ _ hr]
    · show ((s ++ _) ++ _).getD (s ++ _).length [] = _
      rw [getD_concat_self, getD_concat_self, List.map_map]
      rfl

theorem remove_pedestal_no_array_mutation_witness :
    0 < [[(1:ℚ)/2]].length
    ∧ ((remove_pedestal_store [[(1:ℚ)/2]] 0 [("PEDESTAL", (655:ℚ))]).1).getD 0 []
        = [[(1:ℚ)/2]].getD 0 []
    ∧ ((remove_pedestal_store [[(1:ℚ)/2]] 0 [("PEDESTAL", (655:ℚ))]).1).getD
        ((remove_pedestal_store [[(1:ℚ)/2]] 0 [("PEDESTAL", (655:ℚ))]).2.1) []
        = (remove_pedestal ([[(1:ℚ)/2]].getD 0 []) [("PEDESTAL", (655:ℚ))]).1 :=
  ⟨by decide,
    (remove_pedestal_no_array_mutation [[(1:ℚ)/2]] 0 [("PEDESTAL", (655:ℚ))] (by decide)).1,
    (remove_pedestal_no_array_mutation [[(1:ℚ)/2]] 0 [("PEDESTAL", (655:ℚ))] (by decide)).2⟩

set_option maxRecDepth 100000 in
/-- C1: evaluation of `crop_img` at a failing input.  Cropping a 3×3 image
to the rectangle `left=0, right=1, top=0, bottom=1` produces a 2×2 array,
yet the returned header carries `NAXIS1 = NAXIS2 = 3` — the shape of the
original image (line 135 reads `img.shape`, not `new_img.shape`) — instead
of `right-left+1 = bottom-top+1 = 2` as the claimed invariant requires. -/
theorem crop_img_naxis_from_original_shape :
    ((crop_img img3 0 1 0 1 hdr3).1).length = 2
    ∧ ((crop_img img3 0 1 0 1 hdr3).1).map List.length = [2, 2]
    ∧ ((crop_img img3 0 1 0 1 hdr3).2).lookup "NAXIS1" = some 3
    ∧ ((crop_img img3 0 1 0 1 hdr3).2).lookup "NAXIS2" = some 3
    ∧ (1 - 0 + 1 = 2 ∧ (3 : ℚ) ≠ 2) := by
  decide

set_option maxRecDepth 100000 in
/-- C2 counterexample: the claim says every key other than the paired
feature-coordinate keys passes through `crop_img` unchanged, but
`NAXIS1`/`NAXIS2` are overwritten with the original image's shape: a
header with `NAXIS1 = 999` comes back with `NAXIS1 = 200` after cropping a
200×200 image with `left=20 < right=119`, `top=10 < bottom=89`. -/
theorem crop_img_passthrough_counterexample :
    hdrStale.lookup "NAXIS1" = some 999
    ∧ ((crop_img img200 20 119 10 89 hdrStale).2).lookup "NAXIS1" = some 200
    ∧ some (200 : ℚ) ≠ some 999 := by
  decide

/-- C2 (amended): `crop_img` subtracts `left` from the `MOON-X`/`SUN-X`
cards and `top` from the `MOON-Y`/`SUN-Y` cards, and every key other than
those four and the overwritten `NAXIS1`/`NAXIS2` passes through
unchanged. -/
theorem crop_img_translate (img : List (List ℚ)) (left right top bottom : ℕ)
    (header : Header) (k : String)
    (hlr : left < right) (htb : top < bottom)
    (hk1 : k ≠ "NAXIS1") (hk2 : k ≠ "NAXIS2") (hk3 : k ≠ "MOON-X")
    (hk4 : k ≠ "MOON-Y") (hk5 : k ≠ "SUN-X") (hk6 : k ≠ "SUN-Y") :
    ((crop_img img left right top bottom header).2).lookup "MOON-X"
        = (header.lookup "MOON-X").map (fun v => v - (left : ℚ))
    ∧ ((crop_img img left right top bottom header).2).lookup "SUN-X"
        = (header.lookup "SUN-X").map (fun v => v - (left : ℚ))
    ∧ ((crop_img img left right top bottom header).2).lookup "MOON-Y"
        = (header.lookup "MOON-Y").map (fun v => v - (top : ℚ))
    ∧ ((crop_img img left right top bottom header).2).lookup "SUN-Y"
        = (header.lookup "SUN-Y").map (fun v => v - (top : ℚ))
    ∧ ((crop_img img left right top bottom header).2).lookup k
        = header.lookup k := by
  unfold crop_img
  rw [Header.lookup_map_adjust _ (cropAdjust left top) "MOON-X",
    Header.lookup_map_adjust _ (cropAdjust left top) "SUN-X",
    Header.lookup_map_adjust _ (cropAdjust left top) "MOON-Y",
    Header.lookup_map_adjust _ (cropAdjust left top) "SUN-Y",
    Header.lookup_map_adjust _ (cropAdjust left top) k,
    cropAdjust_moonX, cropAdjust_sunX, cropAdjust_moonY, cropAdjust_sunY]
  rw [Header.lookup_set_ne _ _ _ _ (by decide), Header.lookup_set_ne _ _ _ _ (by decide),
    Header.lookup_set_ne _ _ _ _ (by decide), Header.lookup_set_ne _ _ _ _ (by decide),
    Header.lookup_set_ne _ _ _ _ (by decide), Header.lookup_set_ne _ _ _ _ (by decide),
    Header.lookup_set_ne _ _ _ _ (by decide), Header.lookup_set_ne _ _ _ _ (by decide),
    Header.lookup_set_ne _ _ _ _ hk2, Header.lookup_set_ne _ _ _ _ hk1]
  refine ⟨rfl, rfl, rfl, rfl, ?_⟩
  cases hcase : Header.lookup header k with
  | none => rfl
  | some v =>
    simp only [Option.map_some']
    rw [cropAdjust_other left top k v hk3 hk4 hk5 hk6]

set_option maxRecDepth 100000 in
theorem crop_img_translate_witness :
    ((crop_img img200 20 119 10 89 hdrFeatures).2).lookup "MOON-X" = some 100
    ∧ ((crop_img img200 20 119 10 89 hdrFeatures).2).lookup "MOON-Y" = some 70
    ∧ ((crop_img img200 20 119 10 89 hdrFeatures).2).lookup "SUN-X" = some 100
    ∧ ((crop_img img200 20 119 10 89 hdrFeatures).2).lookup "SUN-Y" = some 70
    ∧ ((crop_img img200 20 119 10 89 hdrFeatures).2).lookup "EXPTIME"
        = hdrFeatures.lookup "EXPTIME" := by
  have h := crop_img_translate img200 20 119 10 89 hdrFeatures "EXPTIME"
    (by decide) (by decide) (by decide) (by decide) (by decide) (by decide)
    (by decide) (by decide)
  refine ⟨?_, ?_, ?_, ?_, h.2.2.2.2⟩
  · rw [h.1, show Header.lookup hdrFeatures "MOON-X" = some 120 from rfl,
      Option.map_some']
    norm_num
  · rw [h.2.2.1, show Header.lookup hdrFeatures "MOON-Y" = some 80 from rfl,
      Option.map_some']
    norm_num
  · rw [h.2.1, show Header.lookup hdrFeatures "SUN-X" = some 120 from rfl,
      Option.map_some']
    norm_num
  · rw [h.2.2.2.1, show Header.lookup hdrFeatures "SUN-Y" = some 80 from rfl,
      Option.map_some']
    norm_num

/-- C6 counterexample: the claim says an in-bounds `crop` returns exactly
`height` rows and `width` columns, but for odd sizes the slice
`[c-s//2, c+s//2)` has `2*(s//2)` elements: a 3×3 request centered at
(2,2) inside a 5×5 image returns a 2×2 array. -/
theorem crop_odd_dims_counterexample :
    3 / 2 ≤ 2 ∧ 2 + 3 / 2 ≤ img5.length
    ∧ (crop img5 2 2 3 3).length = 2
    ∧ (crop img5 2 2 3 3).map List.length = [2, 2]
    ∧ (2 : ℕ) ≠ 3 := by
  decide

/-- C6 (amended): an in-bounds `crop(img, x_c, y_c, w, h)` returns exactly
`2*(h//2)` rows of `2*(w//2)` columns each — equal to `h` and `w` exactly
when these are even; in particular a 100×100 crop of a 200×200 source is
exactly 100×100. -/
theorem crop_dims (img : List (List ℚ)) (x_c y_c w h W : ℕ)
    (hrect : ∀ row ∈ img, row.length = W)
    (hy1 : h / 2 ≤ y_c) (hy2 : y_c + h / 2 ≤ img.length)
    (hx1 : w / 2 ≤ x_c) (hx2 : x_c + w / 2 ≤ W) :
    (crop img x_c y_c w h).length = 2 * (h / 2)
    ∧ (crop img x_c y_c w h).map List.length
        = List.replicate (2 * (h / 2)) (2 * (w / 2)) := by
  have hlen : (crop img x_c y_c w h).length = 2 * (h / 2) := by
    unfold crop
    rw [List.length_map, pySlice_length _ _ _ (by omega)]
    omega
  refine ⟨hlen, ?_⟩
  rw [List.eq_replicate_iff]
  constructor
  · rw [List.length_map]
    exact hlen
  · intro b hb
    simp only [crop, List.map_map, List.mem_map, Function.comp] at hb
    obtain ⟨row, hrow, rfl⟩ := hb
    have hrowimg : row ∈ img := mem_of_mem_pySlice hrow
    rw [pySlice_length _ _ _ (by rw [hrect row hrowimg]; omega)]
    omega

theorem crop_dims_witness :
    (100 / 2 ≤ 50 ∧ 50 + 100 / 2 ≤ img200.length)
    ∧ (crop img200 50 50 100 100).length = 2 * (100 / 2)
    ∧ (crop img200 50 50 100 100).map List.length
        = List.replicate (2 * (100 / 2)) (2 * (100 / 2)) := by
  have h := crop_dims img200 50 50 100 100 200
    (fun row hrow => by rw [List.eq_of_mem_replicate hrow]; rfl)
    (by norm_num) (by norm_num [img200]) (by norm_num) (by norm_num)
  exact ⟨⟨by norm_num, by norm_num [img200]⟩, h⟩

theorem roundtrip_sample (x : ℚ) (h0 : 0 ≤ x) (h1 : x ≤ 1) :
    |fromUint16 (toUint16 x) - x| ≤ 1 / 65535 := by
  have hclip : min (max x 0) 1 = x := by
    rw [max_eq_left h0, min_eq_left h1]
  have hfl0 : (0 : ℤ) ≤ ⌊x * 65535⌋ := Int.floor_nonneg.mpr (by positivity)
  have hcast : ((⌊x * 65535⌋.toNat : ℕ) : ℚ) = ((⌊x * 65535⌋ : ℤ) : ℚ) := by
    exact_mod_cast congrArg Int.cast (Int.toNat_of_nonneg hfl0)
  have hle : ((⌊x * 65535⌋ : ℤ) : ℚ) ≤ x * 65535 := Int.floor_le _
  have hlt : x * 65535 < ((⌊x * 65535⌋ : ℤ) : ℚ) + 1 := Int.lt_floor_add_one _
  unfold toUint16 fromUint16
  rw [hclip, hcast, abs_le]
  constructor
  · rw [le_sub_iff_add_le, le_div_iff₀ (by norm_num : (0:ℚ) < 65535)]
    nlinarith
  · rw [sub_le_iff_le_add, div_le_iff₀ (by norm_num : (0:ℚ) < 65535)]
    nlinarith

theorem roundtrip_list (x : List ℚ) (hx : ∀ v ∈ x, 0 ≤ v ∧ v ≤ 1) :
    List.Forall₂ (fun a b => |a - b| ≤ 1 / 65535)
      (List.map fromUint16 (List.map toUint16 x)) x := by
  induction x with
  | nil => exact List.Forall₂.nil
  | cons a t ih =>
    simp only [List.map_cons]
    exact List.Forall₂.cons
      (roundtrip_sample a (hx a (List.mem_cons_self a t)).1
        (hx a (List.mem_cons_self a t)).2)
      (ih (fun v hv => hx v (List.mem_cons_of_mem a hv)))

/-- C3: decoding the result of encoding (save then read) recovers any
array with values in `[0,1]` to within `1/65535` per element when
`convert_to_uint16` is enabled, exactly when it is disabled, and the
channel-axis transposition (trailing→leading on save, leading→trailing on
read) round-trips a 3-axis image to its original layout. -/
theorem fits_roundtrip (x : List ℚ) (f : ℕ → ℕ → ℕ → ℚ)
    (hx : ∀ v ∈ x, 0 ≤ v ∧ v ≤ 1) :
    List.Forall₂ (fun a b => |a - b| ≤ 1 / 65535)
      (read_fits_as_float_samples (save_as_fits_samples x true)) x
    ∧ read_fits_as_float_samples (save_as_fits_samples x false) = x
    ∧ moveaxisRead (moveaxisSave f) = f := by
  refine ⟨?_, rfl, rfl⟩
  unfold save_as_fits_samples
  rw [if_pos rfl]
  exact roundtrip_list x hx

theorem fits_roundtrip_witness :
    (∀ v ∈ [(1:ℚ)/2, 1], 0 ≤ v ∧ v ≤ 1)
    ∧ (List.Forall₂ (fun a b => |a - b| ≤ 1 / 65535)
        (read_fits_as_float_samples (save_as_fits_samples [(1:ℚ)/2, 1] true))
        [(1:ℚ)/2, 1]
      ∧ read_fits_as_float_samples (save_as_fits_samples [(1:ℚ)/2, 1] false)
          = [(1:ℚ)/2, 1]
      ∧ moveaxisRead (moveaxisSave colorSample) = colorSample) := by
  have hx : ∀ v ∈ [(1:ℚ)/2, 1], 0 ≤ v ∧ v ≤ 1 := by
    intro v hv
    simp only [List.mem_cons, List.not_mem_nil, or_false] at hv
    rcases hv with rfl | rfl
    · norm_num
    · norm_num
  exact ⟨hx, fits_roundtrip [(1:ℚ)/2, 1] colorSample hx⟩

/-- C7 counterexample: the claim says any height/width mismatch of the two
planes is a fatal shape error, but `combine_red_green` contains no shape
check: a 1×2 second plane broadcasts into the 2×2 target of the first
plane, so the call succeeds although the heights differ. -/
theorem combine_red_green_broadcast_counterexample :
    planeB.h ≠ planeA.h
    ∧ combine_red_green planeA planeB
        = Except.ok (okValue (combine_red_green planeA planeB)) := by
  exact ⟨by decide, rfl⟩

/-- C7 (amended): `combine_red_green` fails exactly when the second plane
does not broadcast into the first plane's shape (each of its dimensions
equal to the target's or to 1) — so most mismatches raise, but e.g. a 1×W
second plane is silently accepted; when the shapes are identical it
returns a 3-channel image with plane 1 in channel 0, plane 2 in
channel 1, and channel 2 all zeros. -/
theorem combine_red_green_spec (img1 img2 : Plane) (i j : ℕ)
    (hi : i < img1.h) (hj : j < img1.w) :
    (broadcastOk img2.h img2.w img1.h img1.w = false →
        combine_red_green img1 img2 = Except.error "could not broadcast")
    ∧ (img2.h = img1.h → img2.w = img1.w →
        combine_red_green img1 img2
            = Except.ok (okValue (combine_red_green img1 img2))
        ∧ (okValue (combine_red_green img1 img2)).h = img1.h
        ∧ (okValue (combine_red_green img1 img2)).w = img1.w
        ∧ (okValue (combine_red_green img1 img2)).val i j 0 = img1.val i j
        ∧ (okValue (combine_red_green img1 img2)).val i j 1 = img2.val i j
        ∧ (okValue (combine_red_green img1 img2)).val i j 2 = 0) := by
  constructor
  · intro hb
    unfold combine_red_green
    rw [hb, if_neg Bool.false_ne_true]
  · intro h2h h2w
    have hb : broadcastOk img2.h img2.w img1.h img1.w = true := by
      rw [h2h, h2w]
      simp [broadcastOk]
    unfold combine_red_green okValue
    rw [hb, if_pos rfl]
    refine ⟨rfl, rfl, rfl, rfl, ?_, rfl⟩
    show (if (1:ℕ) = 0 then img1.val i j
      else if (1:ℕ) = 1 then
        img2.val (if img2.h = 1 then 0 else i) (if img2.w = 1 then 0 else j)
      else 0) = img2.val i j
    rw [if_neg (by omega), if_pos rfl]
    have hieq : (if img2.h = 1 then 0 else i) = i := by
      by_cases h1 : img2.h = 1
      · have : i = 0 := by omega
        simp [h1, this]
      · simp [h1]
    have hjeq : (if img2.w = 1 then 0 else j) = j := by
      by_cases h1 : img2.w = 1
      · have : j = 0 := by omega
        simp [h1, this]
      · simp [h1]
    rw [hieq, hjeq]

theorem combine_red_green_spec_witness :
    (1 < planeC.h ∧ 2 < planeC.w)
    ∧ ((broadcastOk planeD.h planeD.w planeC.h planeC.w = false →
          combine_red_green planeC planeD = Except.error "could not broadcast")
      ∧ (planeD.h = planeC.h → planeD.w = planeC.w →
          combine_red_green planeC planeD
              = Except.ok (okValue (combine_red_green planeC planeD))
          ∧ (okValue (combine_red_green planeC planeD)).h = planeC.h
          ∧ (okValue (combine_red_green planeC planeD)).w = planeC.w
          ∧ (okValue (combine_red_green planeC planeD)).val 1 2 0 = planeC.val 1 2
          ∧ (okValue (combine_red_green planeC planeD)).val 1 2 1 = planeD.val 1 2
          ∧ (okValue (combine_red_green planeC planeD)).val 1 2 2 = 0))
    ∧ ((broadcastOk planeE.h planeE.w planeC.h planeC.w = false →
          combine_red_green planeC planeE = Except.error "could not broadcast")
      ∧ (planeE.h = planeC.h → planeE.w = planeC.w →
          combine_red_green planeC planeE
              = Except.ok (okValue (combine_red_green planeC planeE))
          ∧ (okValue (combine_red_green planeC planeE)).h = planeC.h
          ∧ (okValue (combine_red_green planeC planeE)).w = planeC.w
          ∧ (okValue (combine_red_green planeC planeE)).val 1 2 0 = planeC.val 1 2
          ∧ (okValue (combine_red_green planeC planeE)).val 1 2 1 = planeE.val 1 2
          ∧ (okValue (combine_red_green planeC planeE)).val 1 2 2 = 0)) :=
  ⟨⟨by decide, by decide⟩,
    combine_red_green_spec planeC planeD 1 2 (by decide) (by decide),
    combine_red_green_spec planeC planeE 1 2 (by decide) (by decide)⟩

/-- C5: under the fit precondition (the crop border stays inside the
image, and the scaled inset together with its border is disjoint from the
source-crop box), `crop_inset` leaves the image so that the bottom-right
block of dimensions `(2*radii+1)*scale` holds the original source-crop
region with every pixel replicated `scale` times along both axes
(nearest-neighbor magnification), while every pixel of the source-crop
box — in particular every pixel strictly inside it — is unchanged.  The
in-place mutation is modelled by state passing. -/
theorem crop_inset_spec (H W : ℕ) (img : ℕ → ℕ → ℚ) (i_c j_c ri rj scale : ℕ)
    (bv : ℚ) (bt : ℕ) (a b i j : ℕ)
    (hscale : 0 < scale)
    (hri : ri + bt ≤ i_c) (hrj : rj + bt ≤ j_c)
    (hH : i_c + ri + bt < H) (hW : j_c + rj + bt < W)
    (hfitH : (2 * ri + 1) * scale + bt ≤ H)
    (hfitW : (2 * rj + 1) * scale + bt ≤ W)
    (hsep : i_c + ri < H - (2 * ri + 1) * scale - bt
          ∨ j_c + rj < W - (2 * rj + 1) * scale - bt)
    (ha : a < (2 * ri + 1) * scale) (hb : b < (2 * rj + 1) * scale)
    (hi1 : i_c - ri ≤ i) (hi2 : i ≤ i_c + ri)
    (hj1 : j_c - rj ≤ j) (hj2 : j ≤ j_c + rj) :
    crop_inset H W img (i_c, j_c) (ri, rj) scale bv bt
        (H - (2 * ri + 1) * scale + a) (W - (2 * rj + 1) * scale + b)
      = img (i_c - ri + a / scale) (j_c - rj + b / scale)
    ∧ crop_inset H W img (i_c, j_c) (ri, rj) scale bv bt i j = img i j := by
  have hq : a / scale < 2 * ri + 1 := (Nat.div_lt_iff_lt_mul hscale).mpr ha
  have hp : b / scale < 2 * rj + 1 := (Nat.div_lt_iff_lt_mul hscale).mpr hb
  simp only [crop_inset]
  rw [show (i_c + ri + 1 - (i_c - ri)) * scale = (2 * ri + 1) * scale by
    congr 1; omega]
  rw [show (j_c + rj + 1 - (j_c - rj)) * scale = (2 * rj + 1) * scale by
    congr 1; omega]
  obtain ⟨S, hS⟩ : ∃ S, (2 * ri + 1) * scale = S := ⟨_, rfl⟩
  obtain ⟨T, hT⟩ : ∃ T, (2 * rj + 1) * scale = T := ⟨_, rfl⟩
  rw [hS] at ha hfitH hsep ⊢
  rw [hT] at hb hfitW hsep ⊢
  constructor
  · have h7 : ¬(H - S - bt ≤ H - S + a ∧ H - S + a < H - S
        ∧ W - T ≤ W - T + b ∧ W - T + b < W) := by omega
    have h6 : ¬(H - S ≤ H - S + a ∧ H - S + a < H
        ∧ W - T - bt ≤ W - T + b ∧ W - T + b < W - T) := by omega
    have h5 : H - S ≤ H - S + a ∧ H - S + a < H
        ∧ W - T ≤ W - T + b ∧ W - T + b < W := by omega
    rw [writeRect_read_out _ _ _ _ _ _ _ _ h7, writeRect_read_out _ _ _ _ _ _ _ _ h6,
      pasteRect_read_in _ _ _ _ _ _ _ _ h5, repeatImg_read]
    rw [show H - S + a - (H - S) = a from by omega,
      show W - T + b - (W - T) = b from by omega]
    obtain ⟨q, hqe⟩ : ∃ q, a / scale = q := ⟨_, rfl⟩
    obtain ⟨p, hpe⟩ : ∃ p, b / scale = p := ⟨_, rfl⟩
    rw [hqe] at hq ⊢
    rw [hpe] at hp ⊢
    have h4 : ¬(i_c + ri + 1 ≤ i_c - ri + q ∧ i_c - ri + q < i_c + ri + 1 + bt
        ∧ j_c - rj - bt ≤ j_c - rj + p ∧ j_c - rj + p < j_c + rj + 1 + bt) := by
      omega
    have h3 : ¬(i_c - ri - bt ≤ i_c - ri + q ∧ i_c - ri + q < i_c - ri
        ∧ j_c - rj - bt ≤ j_c - rj + p ∧ j_c - rj + p < j_c + rj + 1 + bt) := by
      omega
    have h2 : ¬(i_c - ri - bt ≤ i_c - ri + q ∧ i_c - ri + q < i_c + ri + 1 + bt
        ∧ j_c + rj + 1 ≤ j_c - rj + p ∧ j_c - rj + p < j_c + rj + 1 + bt) := by
      omega
    have h1 : ¬(i_c - ri - bt ≤ i_c - ri + q ∧ i_c - ri + q < i_c + ri + 1 + bt
        ∧ j_c - rj - bt ≤ j_c - rj + p ∧ j_c - rj + p < j_c - rj) := by
      omega
    rw [writeRect_read_out _ _ _ _ _ _ _ _ h4, writeRect_read_out _ _ _ _ _ _ _ _ h3,
      writeRect_read_out _ _ _ _ _ _ _ _ h2, writeRect_read_out _ _ _ _ _ _ _ _ h1]
  · have h7 : ¬(H - S - bt ≤ i ∧ i < H - S ∧ W - T ≤ j ∧ j < W) := by omega
    have h6 : ¬(H - S ≤ i ∧ i < H ∧ W - T - bt ≤ j ∧ j < W - T) := by omega
    have h5 : ¬(H - S ≤ i ∧ i < H ∧ W - T ≤ j ∧ j < W) := by omega
    have h4 : ¬(i_c + ri + 1 ≤ i ∧ i < i_c + ri + 1 + bt
        ∧ j_c - rj - bt ≤ j ∧ j < j_c + rj + 1 + bt) := by omega
    have h3 : ¬(i_c - ri - bt ≤ i ∧ i < i_c - ri
        ∧ j_c - rj - bt ≤ j ∧ j < j_c + rj + 1 + bt) := by omega
    have h2 : ¬(i_c - ri - bt ≤ i ∧ i < i_c + ri + 1 + bt
        ∧ j_c + rj + 1 ≤ j ∧ j < j_c + rj + 1 + bt) := by omega
    have h1 : ¬(i_c - ri - bt ≤ i ∧ i < i_c + ri + 1 + bt
        ∧ j_c - rj - bt ≤ j ∧ j < j_c - rj) := by omega
    rw [writeRect_read_out _ _ _ _ _ _ _ _ h7, writeRect_read_out _ _ _ _ _ _ _ _ h6,
      pasteRect_read_out _ _ _ _ _ _ _ _ h5, writeRect_read_out _ _ _ _ _ _ _ _ h4,
      writeRect_read_out _ _ _ _ _ _ _ _ h3, writeRect_read_out _ _ _ _ _ _ _ _ h2,
      writeRect_read_out _ _ _ _ _ _ _ _ h1]

theorem crop_inset_spec_witness :
    (0 < 2 ∧ 1 + 2 ≤ 4 ∧ 4 + 1 + 2 < 20
      ∧ (2 * 1 + 1) * 2 + 2 ≤ 20
      ∧ 4 + 1 < 20 - (2 * 1 + 1) * 2 - 2
      ∧ 3 < (2 * 1 + 1) * 2 ∧ 4 < (2 * 1 + 1) * 2
      ∧ 4 - 1 ≤ 4 ∧ 4 ≤ 4 + 1 ∧ 4 - 1 ≤ 3 ∧ 3 ≤ 4 + 1)
    ∧ crop_inset 20 20 imgW (4, 4) (1, 1) 2 7 2
        (20 - (2 * 1 + 1) * 2 + 3) (20 - (2 * 1 + 1) * 2 + 4)
      = imgW (4 - 1 + 3 / 2) (4 - 1 + 4 / 2)
    ∧ crop_inset 20 20 imgW (4, 4) (1, 1) 2 7 2 4 3 = imgW 4 3 :=
  ⟨⟨by norm_num, by norm_num, by norm_num, by norm_num, by norm_num,
    by norm_num, by norm_num, by norm_num, by norm_num, by norm_num, by norm_num⟩,
    crop_inset_spec 20 20 imgW 4 4 1 1 2 7 2 3 4 4 3
      (by norm_num) (by norm_num) (by norm_num) (by norm_num) (by norm_num)
      (by norm_num) (by norm_num) (Or.inl (by norm_num)) (by norm_num)
      (by norm_num) (by norm_num) (by norm_num) (by norm_num) (by norm_num)⟩

end EclipseProcessing
